import Mathlib

/-!
Verification of the deta.rs client library (query builder, pagination
walker, chunked drive upload, base bulk upsert) against its specification.
The Rust sources are shallowly embedded: serde_json values become an
inductive `Value`, serde maps become association lists with
insert-or-overwrite semantics, and network effects are modelled by an
explicit oracle (a list of responses for the query endpoint, a status
function for drive part uploads) together with the trace of issued
requests.
-/

/-- serde_json `Value`: JSON values, with objects kept as ordered
key/value lists (serde map insertion order). `fnum` carries the `f64`
payloads that `QueryBuilder::range` stores; they are inert data here. -/
inductive Value where
  | null
  | bool (b : Bool)
  | num (n : Int)
  | fnum (f : Float)
  | str (s : String)
  | arr (elems : List Value)
  | obj (fields : List (String × Value))

/-- serde map `insert`: overwrite the value in place when the key is
present, otherwise append the new entry at the end. -/
def mapInsert (k : String) (v : Value) : List (String × Value) → List (String × Value)
  | [] => [(k, v)]
  | (k1, v1) :: rest => if k1 = k then (k, v) :: rest else (k1, v1) :: mapInsert k v rest

/-- Lookup of a key in a serde map. -/
def mapLookup (k : String) : List (String × Value) → Option Value
  | [] => none
  | (k1, v1) :: rest => if k1 = k then some v1 else mapLookup k rest

/-- Source `src/query.rs` `Paging`: pagination metadata of a query response. -/
structure Paging where
  size : Nat
  last : String

/-- Source `src/query.rs` `QueryResult`: one page returned by the query endpoint. -/
structure QueryResult where
  paging : Paging
  items : List Value

/-- Source `src/errors.rs` `DetaError` (payloads of the wrapped foreign errors
are dropped). -/
inductive DetaError where
  | BadRequest
  | Unauthorized
  | NotFound
  | Conflict
  | PayloadTooLarge
  | HTTPError (status : Nat) (msg : String)
  | TransportError
  | PayloadError (msg : String)
  | IOError
  | JSONError
deriving DecidableEq

/-- Source `src/query.rs` `Query`: the fluent query builder. The `base` handle
(endpoint + credentials) is omitted; network interaction is modelled by
an explicit response oracle in `Query.walk`. -/
structure Query where
  limit : Option Nat
  last : Option String
  sort : Option Bool
  container : List Value
  map : List (String × Value)

/-- Rust `Query::new`. -/
def Query.new : Query :=
  { limit := some 1000, last := none, sort := some false, container := [], map := [] }

/-- Rust `Query::limit` (named `setLimit` because `limit` is the field). -/
def Query.setLimit (q : Query) (l : Nat) : Query :=
  { q with limit := some l }

/-- Rust `Query::last` (named `setLast` because `last` is the field). -/
def Query.setLast (q : Query) (l : String) : Query :=
  { q with last := some l }

/-- Rust `Query::sort` (named `setSort` because `sort` is the field). -/
def Query.setSort (q : Query) (desc : Bool) : Query :=
  { q with sort := some desc }

/-- Rust `Query::append`. -/
def Query.append (q : Query) (value : Value) : Query :=
  { q with container := q.container ++ [value] }

/-- Rust `Query::union`: push every accumulated group of `other`, then push
`other`'s current group; `q`'s own current group is untouched. -/
def Query.union (q : Query) (other : Query) : Query :=
  { q with container := (q.container ++ other.container) ++ [Value.obj other.map] }

/-- Rust `Query::equals`: bare field name as key. -/
def Query.equals (q : Query) (field : String) (value : Value) : Query :=
  { q with map := mapInsert field value q.map }

/-- Rust `Query::not_equals`. -/
def Query.not_equals (q : Query) (field : String) (value : Value) : Query :=
  { q with map := mapInsert (field ++ "?ne") value q.map }

/-- Rust `Query::greater_than`. -/
def Query.greater_than (q : Query) (field : String) (value : Value) : Query :=
  { q with map := mapInsert (field ++ "?gt") value q.map }

/-- Rust `Query::greater_than_or_equals`. -/
def Query.greater_than_or_equals (q : Query) (field : String) (value : Value) : Query :=
  { q with map := mapInsert (field ++ "?gte") value q.map }

/-- Rust `Query::less_than`. -/
def Query.less_than (q : Query) (field : String) (value : Value) : Query :=
  { q with map := mapInsert (field ++ "?lt") value q.map }

/-- Rust `Query::less_than_or_equals`. -/
def Query.less_than_or_equals (q : Query) (field : String) (value : Value) : Query :=
  { q with map := mapInsert (field ++ "?lte") value q.map }

/-- Rust `Query::in_range`. -/
def Query.in_range (q : Query) (field : String) (value : Value) : Query :=
  { q with map := mapInsert (field ++ "?range") value q.map }

/-- Rust `Query::contains`. -/
def Query.contains (q : Query) (field : String) (value : Value) : Query :=
  { q with map := mapInsert (field ++ "?contains") value q.map }

/-- Rust `impl Serialize for Query`: the serialized payload. The source
unwraps `self.limit`; a `None` limit would panic, modelled as `none`. -/
def Query.serialize (q : Query) : Option Value :=
  match q.limit with
  | none => none
  | some l =>
    let m := mapInsert "limit" (Value.num l) []
    let m := match q.last with
      | some s => mapInsert "last" (Value.str s) m
      | none => m
    let m := if q.sort = some true then mapInsert "sort" (Value.str "desc") m else m
    let outer := q.container ++ [Value.obj q.map]
    let m := mapInsert "query" (Value.arr outer) m
    some (Value.obj m)

/-- The `while !last.is_empty()` loop of `Query::walk`. `self1` is the
builder being cloned for each page request, `cursor` the current value
of the loop variable `last`, `responses` the remaining replies the
query endpoint will give (consumed one per issued request; exhaustion
behaves like a transport error), `items` the accumulator. Returns the
requests issued by the loop and the final accumulated items. -/
def Query.walkLoop (self1 : Query) (cursor : String)
    (responses : List (Except DetaError QueryResult)) (items : List Value) :
    List Query × List Value :=
  if cursor = "" then ([], items)
  else
    match responses with
    | [] => ([self1.setLast cursor], items)
    | Except.error _ :: _ => ([self1.setLast cursor], items)
    | Except.ok result :: rest =>
      let next := Query.walkLoop self1 result.paging.last rest (items ++ result.items)
      (self1.setLast cursor :: next.1, next.2)

/-- Rust `Query::walk`: first request uses the builder's own state; an error
there is propagated. Afterwards `walkLoop` pages through the cursors.
Returns the trace of issued requests together with the result. -/
def Query.walk (q : Query) (responses : List (Except DetaError QueryResult)) :
    List Query × Except DetaError (List Value) :=
  match responses with
  | [] => ([q], Except.error DetaError.TransportError)
  | Except.error e :: _ => ([q], Except.error e)
  | Except.ok result :: rest =>
    let next := Query.walkLoop q result.paging.last rest result.items
    (q :: next.1, Except.ok next.2)

/-- Source `src/utils.rs` `QueryBuilder`. -/
structure QueryBuilder where
  map : Option (List (String × Value))
  limit : Option Int
  last : Option String
  ors : Option (List (List (String × Value)))

/-- Rust `QueryBuilder::new`. -/
def QueryBuilder.new : QueryBuilder :=
  { map := some [], limit := some 1000, last := none, ors := some [] }

/-- Rust `QueryBuilder::equals`: `self.map.as_mut().unwrap().insert(field, value)`;
`none` models the panic when `map` is `None`. -/
def QueryBuilder.equals (b : QueryBuilder) (field : String) (value : Value) : Option QueryBuilder :=
  match b.map with
  | none => none
  | some m => some { b with map := some (mapInsert field value m) }

/-- Rust `QueryBuilder::not_equals`. -/
def QueryBuilder.not_equals (b : QueryBuilder) (field : String) (value : Value) : Option QueryBuilder :=
  match b.map with
  | none => none
  | some m => some { b with map := some (mapInsert (field ++ "?ne") value m) }

/-- Rust `QueryBuilder::greater_than`. -/
def QueryBuilder.greater_than (b : QueryBuilder) (field : String) (value : Value) : Option QueryBuilder :=
  match b.map with
  | none => none
  | some m => some { b with map := some (mapInsert (field ++ "?gt") value m) }

/-- Rust `QueryBuilder::greater_than_or_equal`. -/
def QueryBuilder.greater_than_or_equal (b : QueryBuilder) (field : String) (value : Value) : Option QueryBuilder :=
  match b.map with
  | none => none
  | some m => some { b with map := some (mapInsert (field ++ "?gte") value m) }

/-- Rust `QueryBuilder::less_than`. -/
def QueryBuilder.less_than (b : QueryBuilder) (field : String) (value : Value) : Option QueryBuilder :=
  match b.map with
  | none => none
  | some m => some { b with map := some (mapInsert (field ++ "?lt") value m) }

/-- Rust `QueryBuilder::less_than_or_equal`. -/
def QueryBuilder.less_than_or_equal (b : QueryBuilder) (field : String) (value : Value) : Option QueryBuilder :=
  match b.map with
  | none => none
  | some m => some { b with map := some (mapInsert (field ++ "?lte") value m) }

/-- The prefix-match comparator of `QueryBuilder` (named `pfx` here);
inserts under the `?pfx` operator key, value `json!(value)`. -/
def QueryBuilder.pfx (b : QueryBuilder) (field : String) (value : String) : Option QueryBuilder :=
  match b.map with
  | none => none
  | some m => some { b with map := some (mapInsert (field ++ "?pfx") (Value.str value) m) }

/-- Rust `QueryBuilder::contains`. -/
def QueryBuilder.contains (b : QueryBuilder) (field : String) (value : String) : Option QueryBuilder :=
  match b.map with
  | none => none
  | some m => some { b with map := some (mapInsert (field ++ "?contains") (Value.str value) m) }

/-- Rust `QueryBuilder::range`: value is `json!([start, end])` with `f64` bounds. -/
def QueryBuilder.range (b : QueryBuilder) (field : String) (start1 : Float) (end1 : Float) : Option QueryBuilder :=
  match b.map with
  | none => none
  | some m =>
    some { b with map := some (mapInsert (field ++ "?range") (Value.arr [Value.fnum start1, Value.fnum end1]) m) }

/-- Rust `QueryBuilder::not_contains`. -/
def QueryBuilder.not_contains (b : QueryBuilder) (field : String) (value : String) : Option QueryBuilder :=
  match b.map with
  | none => none
  | some m => some { b with map := some (mapInsert (field ++ "?not_contains") (Value.str value) m) }

/-- HTTP methods used by the client. -/
inductive Method where
  | GET
  | POST
  | PUT
  | PATCH
  | DELETE
deriving DecidableEq

/-- One HTTP request issued by `Drive`, with a raw byte body. -/
structure HttpCall where
  method : Method
  url : String
  body : Option (List Nat)
deriving DecidableEq

/-- Source `src/drive.rs` `Drive`. -/
structure Drive where
  name : String
  project_id : String
  project_key : String

/-- Source `src/drive.rs` `DRIVE_URL`. -/
def DRIVE_URL : String := "https://drive.deta.sh/v1"

/-- Source `src/drive.rs` `CHUNK_SIZE` (the spec's `MAX_CHUNK_SIZE`), also the
small/large threshold literal `10 * 1024 * 1024` in `Drive::put`. -/
def CHUNK_SIZE : Nat := 10 * 1024 * 1024

/-- Rust `slice::chunks`: split into consecutive pieces of at most `size`
elements; the empty slice yields no chunks. -/
def chunks (size : Nat) (xs : List Nat) : List (List Nat) :=
  if xs = [] ∨ size = 0 then []
  else xs.take size :: chunks size (xs.drop size)
termination_by xs.length
decreasing_by
  rename_i h
  rcases xs with _ | ⟨a, xs⟩
  · simp at h
  · rcases Nat.eq_zero_or_pos size with hz | hp
    · exact absurd (Or.inr hz) h
    · simp only [List.length_drop, List.length_cons]
      exact Nat.sub_lt (Nat.succ_pos _) hp

/-- The `{upload_id, name}` object returned by a successful initiate
call in the large-object path of `Drive::put`. -/
structure InitData where
  upload_id : String
  name : String

/-- Rust `Drive::put`, as the trace of HTTP requests it issues. The network
is an oracle: `init_data` is the (successful) initiate response and
`partStatus` maps each 1-indexed part number to the status code its
upload returns. Small path: one POST of the raw bytes. Large path:
initiate, then one part POST per chunk (all attempted, statuses merely
recorded), then PATCH (commit) when every status is 200, else DELETE
(abort), both on the upload-session URL built from the initiate
response's `upload_id` and `name`. -/
def Drive.put (d : Drive) (save_as : String) (content : List Nat)
    (init_data : InitData) (partStatus : Nat → Nat) : List HttpCall :=
  if content.length ≤ CHUNK_SIZE then
    [{ method := Method.POST,
       url := DRIVE_URL ++ "/" ++ d.project_id ++ "/" ++ d.name ++ "/files?name=" ++ save_as,
       body := some content }]
  else
    let cs := chunks CHUNK_SIZE content
    let initCall : HttpCall :=
      { method := Method.POST,
        url := DRIVE_URL ++ "/" ++ d.project_id ++ "/" ++ d.name ++ "/uploads?name=" ++ save_as,
        body := none }
    let partCalls := cs.enum.map (fun ic =>
      { method := Method.POST,
        url := DRIVE_URL ++ "/" ++ d.project_id ++ "/" ++ d.name ++ "/uploads/" ++
          init_data.upload_id ++ "/parts?name=" ++ init_data.name ++ "&part=" ++ toString (ic.1 + 1),
        body := some ic.2 : HttpCall })
    let done := cs.enum.map (fun ic => partStatus (ic.1 + 1))
    let success := done.all (fun x => x == 200)
    let sessionUrl := DRIVE_URL ++ "/" ++ d.project_id ++ "/" ++ d.name ++ "/uploads/" ++
      init_data.upload_id ++ "?name=" ++ init_data.name
    let finalCall : HttpCall :=
      if success then { method := Method.PATCH, url := sessionUrl, body := none }
      else { method := Method.DELETE, url := sessionUrl, body := none }
    initCall :: (partCalls ++ [finalCall])

/-- Modelled from the spec: "the `save_as` target name must be
percent-encoded once". Unreserved characters (letters, digits, `-`,
`.`, `_`, `~`) are kept; every other character is replaced by `%`
followed by two uppercase hexadecimal digits of its code point. Used
only to compare the spec's claimed encoding against `Drive::put`. -/
def percentEncodeChar (c : Char) : String :=
  if c.isAlpha ∨ c.isDigit ∨ c = '-' ∨ c = '.' ∨ c = '_' ∨ c = '~' then
    String.mk [c]
  else
    let n := c.toNat
    let hex := fun (k : Nat) => ("0123456789ABCDEF".toList).getD k '0'
    String.mk ['%', hex (n / 16 % 16), hex (n % 16)]

/-- Modelled from the spec: percent-encoding of a whole name. -/
def percentEncode (s : String) : String :=
  String.join (s.toList.map percentEncodeChar)

/-- Source `src/base.rs` `Record`. -/
structure Record where
  key : Option String
  value : Value
  expires_in : Option Int
  expires_at : Option Int

/-- Rust `Record::json`. The source calls `chrono::Utc::now()`; the current
timestamp is the explicit parameter `now`. `value.as_object().unwrap()`
panics on a non-object value, modelled as `none`. -/
def Record.json (r : Record) (now : Int) : Option Value :=
  match r.value with
  | Value.obj fields =>
    let data := fields
    let data := match r.key with
      | some k => mapInsert "key" (Value.str k) data
      | none => data
    let data := match r.expires_in with
      | some e => mapInsert "__expires" (Value.num (now + e)) data
      | none =>
        match r.expires_at with
        | some e => mapInsert "__expires" (Value.num e) data
        | none => data
    some (Value.obj data)
  | _ => none

/-- Source `src/base.rs` `Base`. -/
structure Base where
  name : String
  project_id : String
  project_key : String

/-- Source `src/base.rs` `BASE_URL`. -/
def BASE_URL : String := "https://database.deta.sh/v1"

/-- One HTTP request with a JSON payload, as issued by `Base`. -/
structure BaseRequest where
  method : Method
  url : String
  payload : Value

/-- Rust `Base::put`, as the request it issues: every record is serialized
(`none` models a `Record::json` panic) and all of them are sent under
the `items` key of one PUT request — the source performs no count
check of any kind before sending. -/
def Base.put (b : Base) (records : List Record) (now : Int) : Option BaseRequest :=
  match records.mapM (fun r => r.json now) with
  | none => none
  | some items =>
    some { method := Method.PUT,
           url := BASE_URL ++ "/" ++ b.project_id ++ "/" ++ b.name ++ "/items",
           payload := Value.obj [("items", Value.arr items)] }

/-- The Query values reachable from `Query::new` through the public
builder operations of `src/query.rs`. -/
inductive Reachable : Query → Prop where
  | new : Reachable Query.new
  | setLimit (q : Query) (n : Nat) : Reachable q → Reachable (q.setLimit n)
  | setLast (q : Query) (s : String) : Reachable q → Reachable (q.setLast s)
  | setSort (q : Query) (b : Bool) : Reachable q → Reachable (q.setSort b)
  | append (q : Query) (v : Value) : Reachable q → Reachable (q.append v)
  | union (q r : Query) : Reachable q → Reachable r → Reachable (q.union r)
  | equals (q : Query) (f : String) (v : Value) : Reachable q → Reachable (q.equals f v)
  | not_equals (q : Query) (f : String) (v : Value) : Reachable q → Reachable (q.not_equals f v)
  | greater_than (q : Query) (f : String) (v : Value) : Reachable q → Reachable (q.greater_than f v)
  | greater_than_or_equals (q : Query) (f : String) (v : Value) :
      Reachable q → Reachable (q.greater_than_or_equals f v)
  | less_than (q : Query) (f : String) (v : Value) : Reachable q → Reachable (q.less_than f v)
  | less_than_or_equals (q : Query) (f : String) (v : Value) :
      Reachable q → Reachable (q.less_than_or_equals f v)
  | in_range (q : Query) (f : String) (v : Value) : Reachable q → Reachable (q.in_range f v)
  | contains (q : Query) (f : String) (v : Value) : Reachable q → Reachable (q.contains f v)

/-- Characterization of `Query.serialize` when the limit is set: the
payload object lists limit, the optional last, the optional sort, and
the query array (accumulated groups followed by the current group). -/
theorem Query.serialize_eq (q : Query) (l : Nat) (h : q.limit = some l) :
    q.serialize = some (Value.obj (
      [("limit", Value.num l)]
      ++ (match q.last with
          | some s => [("last", Value.str s)]
          | none => [])
      ++ (if q.sort = some true then [("sort", Value.str "desc")] else [])
      ++ [("query", Value.arr (q.container ++ [Value.obj q.map]))])) := by
  by_cases hs : q.sort = some true <;> rcases hl : q.last with _ | s <;>
    simp [Query.serialize, h, hs, hl, mapInsert]

/-- The serialized payload of a limit-carrying builder always contains
the `limit` key. -/
theorem Query.serialize_limit_key (q : Query) (l : Nat) (h : q.limit = some l) :
    ∃ fields, q.serialize = some (Value.obj fields)
      ∧ mapLookup "limit" fields = some (Value.num l) := by
  refine ⟨_, Query.serialize_eq q l h, ?_⟩
  by_cases hs : q.sort = some true <;> rcases hl : q.last with _ | s <;>
    simp [hs, hl, mapLookup]

/-- Claim C5: serializing any query builder yields an object whose `limit`
key holds the builder's limit, whose `last` key is present exactly when
`last` is set (with that cursor), whose `sort` key is present (with
value `"desc"`) exactly when sort was set to `true`, and whose `query`
key holds the accumulated OR groups followed by the current in-progress
group as the trailing element, even when that group is empty. -/
theorem query_serialize_shape (q : Query) (l : Nat) (h : q.limit = some l) :
    ∃ fields, q.serialize = some (Value.obj fields)
      ∧ mapLookup "limit" fields = some (Value.num l)
      ∧ mapLookup "last" fields = Option.map Value.str q.last
      ∧ mapLookup "sort" fields = (if q.sort = some true then some (Value.str "desc") else none)
      ∧ mapLookup "query" fields = some (Value.arr (q.container ++ [Value.obj q.map])) := by
  refine ⟨_, Query.serialize_eq q l h, ?_, ?_, ?_, ?_⟩ <;>
    (by_cases hs : q.sort = some true <;> rcases hl : q.last with _ | s <;>
      simp [hs, hl, mapLookup])

/-- Witness for C5 at the freshly created builder (empty current group,
unset last, sort defaulted to `some false`). -/
theorem query_serialize_shape_witness :
    Query.new.limit = some 1000 ∧
    ∃ fields, Query.new.serialize = some (Value.obj fields)
      ∧ mapLookup "limit" fields = some (Value.num 1000)
      ∧ mapLookup "last" fields = Option.map Value.str Query.new.last
      ∧ mapLookup "sort" fields
          = (if Query.new.sort = some true then some (Value.str "desc") else none)
      ∧ mapLookup "query" fields
          = some (Value.arr (Query.new.container ++ [Value.obj Query.new.map])) :=
  ⟨rfl, query_serialize_shape Query.new 1000 rfl⟩

/-- Claim C6: `union` appends `b`'s accumulated groups and then `b`'s current
group to `a`'s accumulated groups, leaving `a`'s current group alone;
serializing the union therefore yields a query array holding, in order,
`a`'s accumulated groups, `b`'s accumulated groups, `b`'s former
current group, and `a`'s current group as the trailing in-progress
element — `a.container.length + (b.container.length + 1) + 1` groups,
contents preserved. -/
theorem query_union_groups (a b : Query) (l : Nat) (h : a.limit = some l) :
    (a.union b).container = (a.container ++ b.container) ++ [Value.obj b.map]
    ∧ (a.union b).map = a.map
    ∧ ∃ fields, (a.union b).serialize = some (Value.obj fields)
      ∧ mapLookup "query" fields
          = some (Value.arr (((a.container ++ b.container) ++ [Value.obj b.map]) ++ [Value.obj a.map]))
      ∧ (((a.container ++ b.container) ++ [Value.obj b.map]) ++ [Value.obj a.map]).length
          = a.container.length + (b.container.length + 1) + 1 := by
  have hu : (a.union b).limit = some l := h
  refine ⟨rfl, rfl, _, Query.serialize_eq (a.union b) l hu, ?_, ?_⟩
  · by_cases hs : a.sort = some true <;>
      rcases hl : a.last with _ | s <;>
      simp [hs, hl, mapLookup, Query.union]
  · simp
    omega

/-- Witness for C6: one accumulated group on each side plus a nonempty
current group on `b`. -/
theorem query_union_groups_witness :
    (Query.new.append (Value.obj [])).limit = some 1000
    ∧ (((Query.new.append (Value.obj [])).union (Query.new.equals "x" (Value.num 1))).container
        = ((Query.new.append (Value.obj [])).container ++ (Query.new.equals "x" (Value.num 1)).container)
          ++ [Value.obj (Query.new.equals "x" (Value.num 1)).map]
      ∧ ((Query.new.append (Value.obj [])).union (Query.new.equals "x" (Value.num 1))).map
        = (Query.new.append (Value.obj [])).map
      ∧ ∃ fields,
        ((Query.new.append (Value.obj [])).union (Query.new.equals "x" (Value.num 1))).serialize
          = some (Value.obj fields)
        ∧ mapLookup "query" fields
          = some (Value.arr ((((Query.new.append (Value.obj [])).container
              ++ (Query.new.equals "x" (Value.num 1)).container)
              ++ [Value.obj (Query.new.equals "x" (Value.num 1)).map])
              ++ [Value.obj (Query.new.append (Value.obj [])).map]))
        ∧ ((((Query.new.append (Value.obj [])).container
              ++ (Query.new.equals "x" (Value.num 1)).container)
              ++ [Value.obj (Query.new.equals "x" (Value.num 1)).map])
              ++ [Value.obj (Query.new.append (Value.obj [])).map]).length
          = (Query.new.append (Value.obj [])).container.length
            + ((Query.new.equals "x" (Value.num 1)).container.length + 1) + 1) :=
  ⟨rfl, query_union_groups (Query.new.append (Value.obj []))
    (Query.new.equals "x" (Value.num 1)) 1000 rfl⟩

/-- Claim C7: on any builder whose current group is live, `equals` inserts
under the bare field name, and every other comparator of `QueryBuilder`
inserts under `field?op` with `op` one of `ne`, `gt`, `gte`, `lt`,
`lte`, `range`, `contains`, `not_contains`, `pfx` — these ten methods
being the complete comparator surface of `src/utils.rs`. -/
theorem querybuilder_comparator_keys (b : QueryBuilder) (m : List (String × Value))
    (field : String) (v : Value) (s : String) (x y : Float) (h : b.map = some m) :
    b.equals field v = some { b with map := some (mapInsert field v m) }
    ∧ b.not_equals field v = some { b with map := some (mapInsert (field ++ "?ne") v m) }
    ∧ b.greater_than field v = some { b with map := some (mapInsert (field ++ "?gt") v m) }
    ∧ b.greater_than_or_equal field v = some { b with map := some (mapInsert (field ++ "?gte") v m) }
    ∧ b.less_than field v = some { b with map := some (mapInsert (field ++ "?lt") v m) }
    ∧ b.less_than_or_equal field v = some { b with map := some (mapInsert (field ++ "?lte") v m) }
    ∧ b.range field x y
        = some { b with map := some (mapInsert (field ++ "?range")
            (Value.arr [Value.fnum x, Value.fnum y]) m) }
    ∧ b.contains field s
        = some { b with map := some (mapInsert (field ++ "?contains") (Value.str s) m) }
    ∧ b.not_contains field s
        = some { b with map := some (mapInsert (field ++ "?not_contains") (Value.str s) m) }
    ∧ b.pfx field s
        = some { b with map := some (mapInsert (field ++ "?pfx") (Value.str s) m) } := by
  refine ⟨?_, ?_, ?_, ?_, ?_, ?_, ?_, ?_, ?_, ?_⟩ <;>
    simp [QueryBuilder.equals, QueryBuilder.not_equals, QueryBuilder.greater_than,
      QueryBuilder.greater_than_or_equal, QueryBuilder.less_than,
      QueryBuilder.less_than_or_equal, QueryBuilder.range, QueryBuilder.contains,
      QueryBuilder.not_contains, QueryBuilder.pfx, h]

/-- Witness for C7 at the fresh builder with an empty current group. -/
theorem querybuilder_comparator_keys_witness :
    QueryBuilder.new.map = some []
    ∧ (QueryBuilder.new.equals "f" Value.null
        = some { QueryBuilder.new with map := some (mapInsert "f" Value.null []) }
      ∧ QueryBuilder.new.not_equals "f" Value.null
        = some { QueryBuilder.new with map := some (mapInsert ("f" ++ "?ne") Value.null []) }
      ∧ QueryBuilder.new.greater_than "f" Value.null
        = some { QueryBuilder.new with map := some (mapInsert ("f" ++ "?gt") Value.null []) }
      ∧ QueryBuilder.new.greater_than_or_equal "f" Value.null
        = some { QueryBuilder.new with map := some (mapInsert ("f" ++ "?gte") Value.null []) }
      ∧ QueryBuilder.new.less_than "f" Value.null
        = some { QueryBuilder.new with map := some (mapInsert ("f" ++ "?lt") Value.null []) }
      ∧ QueryBuilder.new.less_than_or_equal "f" Value.null
        = some { QueryBuilder.new with map := some (mapInsert ("f" ++ "?lte") Value.null []) }
      ∧ QueryBuilder.new.range "f" 1.5 2.5
        = some { QueryBuilder.new with map := some (mapInsert ("f" ++ "?range")
            (Value.arr [Value.fnum 1.5, Value.fnum 2.5]) []) }
      ∧ QueryBuilder.new.contains "f" "p"
        = some { QueryBuilder.new with map := some (mapInsert ("f" ++ "?contains") (Value.str "p") []) }
      ∧ QueryBuilder.new.not_contains "f" "p"
        = some { QueryBuilder.new with map := some (mapInsert ("f" ++ "?not_contains") (Value.str "p") []) }
      ∧ QueryBuilder.new.pfx "f" "p"
        = some { QueryBuilder.new with map := some (mapInsert ("f" ++ "?pfx") (Value.str "p") []) }) :=
  ⟨rfl, querybuilder_comparator_keys QueryBuilder.new [] "f" Value.null "p" 1.5 2.5 rfl⟩

/-- Claim C10: every builder reachable from `Query::new` keeps `limit` of the
form `Some _` (initialized to `Some 1000`, never cleared), so the
`unwrap` inside serialization cannot panic and every serialized payload
carries a `limit` key. -/
theorem query_limit_never_none (q : Query) (h : Reachable q) :
    (∃ n, q.limit = some n)
    ∧ ∃ fields, q.serialize = some (Value.obj fields)
      ∧ ∃ v, mapLookup "limit" fields = some v := by
  have hl : ∃ n, q.limit = some n := by
    induction h with
    | new => exact ⟨1000, rfl⟩
    | setLimit q n _ _ => exact ⟨n, rfl⟩
    | setLast q s _ ih => exact ih
    | setSort q b _ ih => exact ih
    | append q v _ ih => exact ih
    | union q r _ _ ihq _ => exact ihq
    | equals q f v _ ih => exact ih
    | not_equals q f v _ ih => exact ih
    | greater_than q f v _ ih => exact ih
    | greater_than_or_equals q f v _ ih => exact ih
    | less_than q f v _ ih => exact ih
    | less_than_or_equals q f v _ ih => exact ih
    | in_range q f v _ ih => exact ih
    | contains q f v _ ih => exact ih
  obtain ⟨n, hn⟩ := hl
  obtain ⟨fields, hf, hk⟩ := Query.serialize_limit_key q n hn
  exact ⟨⟨n, hn⟩, fields, hf, Value.num n, hk⟩

/-- Running `walkLoop` on a run of pages whose cursors are all nonempty except
the final one: one request per page, cursors threaded, items
concatenated in order, loop exits on the empty cursor. -/
theorem Query.walkLoop_pages (self1 : Query) (mids : List QueryResult)
    (lastPage : QueryResult) :
    ∀ (cursor : String) (items : List Value), cursor ≠ "" →
    (∀ p ∈ mids, p.paging.last ≠ "") → lastPage.paging.last = "" →
    Query.walkLoop self1 cursor ((mids ++ [lastPage]).map Except.ok) items
      = (self1.setLast cursor :: mids.map (fun p => self1.setLast p.paging.last),
         items ++ ((mids ++ [lastPage]).map QueryResult.items).flatten) := by
  induction mids with
  | nil =>
    intro cursor items hc _ hl
    simp [Query.walkLoop, hc, hl]
  | cons m mids ih =>
    intro cursor items hc hmid hl
    have hm : m.paging.last ≠ "" := hmid m (by simp)
    have ihm := ih m.paging.last (items ++ m.items) hm
      (fun p hp => hmid p (by simp [hp])) hl
    simp only [List.map_append, List.map_cons, List.map_nil] at ihm
    simp [Query.walkLoop, hc, ihm, List.append_assoc]

/-- Running `walkLoop` on a run of pages with nonempty cursors followed by an
error response: the error request is still issued, then the loop breaks
and keeps everything aggregated so far. -/
theorem Query.walkLoop_error (self1 : Query) (pages : List QueryResult) :
    ∀ (cursor : String) (items : List Value) (e : DetaError)
      (rest : List (Except DetaError QueryResult)), cursor ≠ "" →
    (∀ p ∈ pages, p.paging.last ≠ "") →
    Query.walkLoop self1 cursor (pages.map Except.ok ++ Except.error e :: rest) items
      = (self1.setLast cursor :: pages.map (fun p => self1.setLast p.paging.last),
         items ++ (pages.map QueryResult.items).flatten) := by
  induction pages with
  | nil =>
    intro cursor items e rest hc _
    simp [Query.walkLoop, hc]
  | cons m pages ih =>
    intro cursor items e rest hc hmid
    have hm : m.paging.last ≠ "" := hmid m (by simp)
    have ihm := ih m.paging.last (items ++ m.items) e rest hm
      (fun p hp => hmid p (by simp [hp]))
    simp only [List.cons_append, List.map_cons, Query.walkLoop, hc, if_neg hc, ihm]
    simp [ihm]

/-- Claim C1: over a response sequence of N pages whose cursors are nonempty
except the last (empty) one, `walk` issues exactly N requests — the
first being the builder itself, each later one a clone with `last` set
to the previous page's cursor — and succeeds with all pages' items
concatenated in order; an error answering the first request is
propagated, while an error answering a later request ends the walk,
which still succeeds with everything aggregated before the error. -/
theorem walk_pagination_spec :
    (∀ (q : Query) (mids : List QueryResult) (lastPage : QueryResult),
      (∀ p ∈ mids, p.paging.last ≠ "") → lastPage.paging.last = "" →
      Query.walk q ((mids ++ [lastPage]).map Except.ok)
        = (q :: mids.map (fun p => q.setLast p.paging.last),
           Except.ok (((mids ++ [lastPage]).map QueryResult.items).flatten))
      ∧ (Query.walk q ((mids ++ [lastPage]).map Except.ok)).1.length
          = (mids ++ [lastPage]).length)
    ∧ (∀ (q : Query) (e : DetaError) (rest : List (Except DetaError QueryResult)),
        Query.walk q (Except.error e :: rest) = ([q], Except.error e))
    ∧ (∀ (q : Query) (first1 : QueryResult) (pages : List QueryResult)
        (e : DetaError) (rest : List (Except DetaError QueryResult)),
        first1.paging.last ≠ "" → (∀ p ∈ pages, p.paging.last ≠ "") →
        Query.walk q ((Except.ok first1 :: pages.map Except.ok) ++ Except.error e :: rest)
          = (q :: (first1 :: pages).map (fun p => q.setLast p.paging.last),
             Except.ok (((first1 :: pages).map QueryResult.items).flatten))) := by
  refine ⟨?_, ?_, ?_⟩
  · intro q mids lastPage hmid hl
    have hmain : Query.walk q ((mids ++ [lastPage]).map Except.ok)
        = (q :: mids.map (fun p => q.setLast p.paging.last),
           Except.ok (((mids ++ [lastPage]).map QueryResult.items).flatten)) := by
      rcases mids with _ | ⟨m, mids⟩
      · simp [Query.walk, Query.walkLoop, hl]
      · have hm : m.paging.last ≠ "" := hmid m (by simp)
        have hrest := Query.walkLoop_pages q mids lastPage m.paging.last m.items hm
          (fun p hp => hmid p (by simp [hp])) hl
        simp only [List.cons_append, List.map_cons, Query.walk, hrest]
        simp [hrest]
    refine ⟨hmain, ?_⟩
    rw [hmain]
    simp
  · intro q e rest
    simp [Query.walk]
  · intro q first1 pages e rest hf hmid
    have hrest := Query.walkLoop_error q pages first1.paging.last first1.items e rest hf hmid
    simp only [List.cons_append, List.map_cons, Query.walk, hrest]
    simp [hrest]

/-- Witness for C1: two pages (cursor `"c1"`, then empty) aggregated by
a walk from the fresh builder. -/
theorem walk_pagination_spec_witness :
    (∀ p ∈ [(⟨⟨2, "c1"⟩, [Value.num 1, Value.num 2]⟩ : QueryResult)], p.paging.last ≠ "")
    ∧ (⟨⟨1, ""⟩, [Value.num 3]⟩ : QueryResult).paging.last = ""
    ∧ (Query.walk Query.new
        (([(⟨⟨2, "c1"⟩, [Value.num 1, Value.num 2]⟩ : QueryResult)]
          ++ [(⟨⟨1, ""⟩, [Value.num 3]⟩ : QueryResult)]).map Except.ok)
        = (Query.new :: [(⟨⟨2, "c1"⟩, [Value.num 1, Value.num 2]⟩ : QueryResult)].map
            (fun p => Query.new.setLast p.paging.last),
           Except.ok ((([(⟨⟨2, "c1"⟩, [Value.num 1, Value.num 2]⟩ : QueryResult)]
              ++ [(⟨⟨1, ""⟩, [Value.num 3]⟩ : QueryResult)]).map QueryResult.items).flatten))
      ∧ (Query.walk Query.new
          (([(⟨⟨2, "c1"⟩, [Value.num 1, Value.num 2]⟩ : QueryResult)]
            ++ [(⟨⟨1, ""⟩, [Value.num 3]⟩ : QueryResult)]).map Except.ok)).1.length
          = ([(⟨⟨2, "c1"⟩, [Value.num 1, Value.num 2]⟩ : QueryResult)]
            ++ [(⟨⟨1, ""⟩, [Value.num 3]⟩ : QueryResult)]).length) := by
  have h1 : ∀ p ∈ [(⟨⟨2, "c1"⟩, [Value.num 1, Value.num 2]⟩ : QueryResult)],
      p.paging.last ≠ "" := by simp
  exact ⟨h1, rfl, walk_pagination_spec.1 Query.new _ _ h1 rfl⟩

/-- Claim C3 counterexample: a fresh builder has `limit = Some 1000`, yet
`walk` does not fail with a configuration error — against a one-page
oracle it issues the request and succeeds. -/
theorem walk_with_limit_counterexample :
    Query.new.limit = some 1000
    ∧ Query.new.walk [Except.ok ⟨⟨0, ""⟩, []⟩] = ([Query.new], Except.ok []) := by
  exact ⟨rfl, by simp [Query.walk, Query.walkLoop]⟩

/-- Claim C3 amended: `walk` performs no client-side limit check at all; with
`limit = Some x` it still issues the first request from the builder's
own state, and a `PayloadError` can only be returned if the endpoint
itself answered with one — no configuration error is synthesized
locally. -/
theorem walk_ignores_limit (q : Query) (x : Nat)
    (responses : List (Except DetaError QueryResult)) (m : String)
    (h : q.limit = some x) :
    (q.walk responses).1.head? = some q
    ∧ ((q.walk responses).2 = Except.error (DetaError.PayloadError m)
        → responses.head? = some (Except.error (DetaError.PayloadError m))) := by
  rcases responses with _ | ⟨r, rest⟩
  · refine ⟨rfl, ?_⟩
    intro hc
    simp [Query.walk] at hc
  · rcases r with e | result
    · refine ⟨rfl, ?_⟩
      intro hc
      simp only [Query.walk] at hc
      injection hc with h2
      simp [h2]
    · refine ⟨rfl, ?_⟩
      intro hc
      simp [Query.walk] at hc

/-- Witness for C3's amended statement at the fresh builder. -/
theorem walk_ignores_limit_witness :
    Query.new.limit = some 1000
    ∧ ((Query.new.walk []).1.head? = some Query.new
      ∧ ((Query.new.walk []).2
            = Except.error (DetaError.PayloadError "limit must be unset for full-walk mode")
          → ([] : List (Except DetaError QueryResult)).head?
            = some (Except.error
                (DetaError.PayloadError "limit must be unset for full-walk mode")))) :=
  ⟨rfl, walk_ignores_limit Query.new 1000 [] "limit must be unset for full-walk mode" rfl⟩

/-- Unfolding equation for `chunks`. -/
theorem chunks_eq (size : Nat) (xs : List Nat) :
    chunks size xs = if xs = [] ∨ size = 0 then []
      else xs.take size :: chunks size (xs.drop size) := by
  rw [chunks]

/-- Aggregated part statuses over `enumFrom`: the `all == 200` check
succeeds exactly when every 1-indexed part status (from the offset on)
is 200. -/
theorem all_enumFrom_status (f : Nat → Nat) :
    ∀ (cs : List (List Nat)) (n : Nat),
    (((cs.enumFrom n).map (fun ic => f (ic.1 + 1))).all (fun x => x == 200)) = true
      ↔ ∀ i < cs.length, f (n + i + 1) = 200 := by
  intro cs
  induction cs with
  | nil => intro n; simp
  | cons c cs ih =>
    intro n
    simp only [List.enumFrom, List.map_cons, List.all_cons, Bool.and_eq_true, beq_iff_eq,
      ih (n + 1), List.length_cons]
    constructor
    · rintro ⟨h0, hrest⟩ i hi
      rcases i with _ | j
      · simpa using h0
      · have h3 := hrest j (by omega)
        have harg : n + 1 + j + 1 = n + (j + 1) + 1 := by omega
        rw [harg] at h3
        exact h3
    · intro hall
      refine ⟨by simpa using hall 0 (by omega), fun j hj => ?_⟩
      have h3 := hall (j + 1) (by omega)
      have harg : n + 1 + j + 1 = n + (j + 1) + 1 := by omega
      rw [harg]
      exact h3

/-- Evaluating `chunks` on a buffer one byte over the threshold: exactly two
chunks, the full first window and the single leftover byte. -/
theorem chunks_over_by_one (content : List Nat) (h : content.length = CHUNK_SIZE + 1) :
    chunks CHUNK_SIZE content = [content.take CHUNK_SIZE, content.drop CHUNK_SIZE] := by
  have hz : CHUNK_SIZE ≠ 0 := by simp [CHUNK_SIZE]
  have h1 : content ≠ [] := by
    intro hc
    rw [hc] at h
    simp [CHUNK_SIZE] at h
  have hd : (content.drop CHUNK_SIZE).length = 1 := by simp [h]
  have hd1 : content.drop CHUNK_SIZE ≠ [] := by
    intro hc
    rw [hc] at hd
    simp at hd
  have ht : (content.drop CHUNK_SIZE).take CHUNK_SIZE = content.drop CHUNK_SIZE :=
    List.take_of_length_le (by rw [hd]; simp [CHUNK_SIZE])
  have hdd : (content.drop CHUNK_SIZE).drop CHUNK_SIZE = [] :=
    List.drop_eq_nil_of_le (by rw [hd]; simp [CHUNK_SIZE])
  rw [chunks_eq, if_neg (by push_neg; exact ⟨h1, hz⟩),
    chunks_eq, if_neg (by push_neg; exact ⟨hd1, hz⟩),
    ht, hdd, chunks_eq]
  simp

/-- Claim C2: on a large upload (strictly more than `CHUNK_SIZE` bytes) with
a successful initiate, `Drive::put` issues the initiate POST, then one
part POST per chunk — the part list is a pure function of the chunks,
so every part is attempted whatever the statuses are — and then exactly
one final call: PATCH (commit) iff every part status is 200, DELETE
(abort) iff some part status differs from 200; in particular a failing
part 2 of 3 forces an abort. -/
theorem drive_put_commit_abort (d : Drive) (save_as : String) (content : List Nat)
    (init_data : InitData) (partStatus : Nat → Nat)
    (h : CHUNK_SIZE < content.length) :
    ∃ (parts : List HttpCall) (final : HttpCall),
      Drive.put d save_as content init_data partStatus
        = { method := Method.POST,
            url := DRIVE_URL ++ "/" ++ d.project_id ++ "/" ++ d.name
              ++ "/uploads?name=" ++ save_as,
            body := none } :: (parts ++ [final])
      ∧ parts = (chunks CHUNK_SIZE content).enum.map (fun ic =>
          { method := Method.POST,
            url := DRIVE_URL ++ "/" ++ d.project_id ++ "/" ++ d.name ++ "/uploads/" ++
              init_data.upload_id ++ "/parts?name=" ++ init_data.name ++ "&part="
              ++ toString (ic.1 + 1),
            body := some ic.2 })
      ∧ parts.length = (chunks CHUNK_SIZE content).length
      ∧ (∀ c ∈ parts, c.method = Method.POST)
      ∧ (final.method = Method.PATCH ∨ final.method = Method.DELETE)
      ∧ (final.method = Method.PATCH
          ↔ ∀ i < (chunks CHUNK_SIZE content).length, partStatus (i + 1) = 200)
      ∧ (final.method = Method.DELETE
          ↔ ∃ i, i < (chunks CHUNK_SIZE content).length ∧ partStatus (i + 1) ≠ 200)
      ∧ ((chunks CHUNK_SIZE content).length = 3 → partStatus 2 ≠ 200
          → final.method = Method.DELETE) := by
  have hnot : ¬ content.length ≤ CHUNK_SIZE := by omega
  have hall : (((chunks CHUNK_SIZE content).enum.map
        (fun ic => partStatus (ic.1 + 1))).all (fun x => x == 200)) = true
      ↔ ∀ i < (chunks CHUNK_SIZE content).length, partStatus (i + 1) = 200 := by
    rw [List.enum, all_enumFrom_status partStatus (chunks CHUNK_SIZE content) 0]
    constructor
    · intro h2 i hi
      have h3 := h2 i hi
      rwa [Nat.zero_add] at h3
    · intro h2 i hi
      rw [Nat.zero_add]
      exact h2 i hi
  refine ⟨(chunks CHUNK_SIZE content).enum.map (fun ic =>
      { method := Method.POST,
        url := DRIVE_URL ++ "/" ++ d.project_id ++ "/" ++ d.name ++ "/uploads/" ++
          init_data.upload_id ++ "/parts?name=" ++ init_data.name ++ "&part="
          ++ toString (ic.1 + 1),
        body := some ic.2 }),
    (if (((chunks CHUNK_SIZE content).enum.map
          (fun ic => partStatus (ic.1 + 1))).all (fun x => x == 200)) = true
      then { method := Method.PATCH,
             url := DRIVE_URL ++ "/" ++ d.project_id ++ "/" ++ d.name ++ "/uploads/" ++
               init_data.upload_id ++ "?name=" ++ init_data.name,
             body := none }
      else { method := Method.DELETE,
             url := DRIVE_URL ++ "/" ++ d.project_id ++ "/" ++ d.name ++ "/uploads/" ++
               init_data.upload_id ++ "?name=" ++ init_data.name,
             body := none }),
    ?_, rfl, by simp, ?_, ?_, ?_, ?_, ?_⟩
  · simp only [Drive.put, if_neg hnot]
  · intro c hc
    simp only [List.mem_map] at hc
    obtain ⟨ic, _, hic⟩ := hc
    rw [← hic]
  · by_cases hs : (((chunks CHUNK_SIZE content).enum.map
        (fun ic => partStatus (ic.1 + 1))).all (fun x => x == 200)) = true
    · rw [if_pos hs]
      exact Or.inl rfl
    · rw [if_neg hs]
      exact Or.inr rfl
  · by_cases hs : (((chunks CHUNK_SIZE content).enum.map
        (fun ic => partStatus (ic.1 + 1))).all (fun x => x == 200)) = true
    · rw [if_pos hs]
      simpa using hall.mp hs
    · rw [if_neg hs]
      constructor
      · intro hcontra
        cases hcontra
      · intro h2
        exact absurd (hall.mpr h2) hs
  · by_cases hs : (((chunks CHUNK_SIZE content).enum.map
        (fun ic => partStatus (ic.1 + 1))).all (fun x => x == 200)) = true
    · rw [if_pos hs]
      constructor
      · intro hcontra
        cases hcontra
      · rintro ⟨i, hi, hne⟩
        exact absurd (hall.mp hs i hi) hne
    · rw [if_neg hs]
      constructor
      · intro _
        by_contra hnone
        push_neg at hnone
        exact hs (hall.mpr (fun i hi => hnone i hi))
      · intro _
        rfl
  · intro hlen h2
    by_cases hs : (((chunks CHUNK_SIZE content).enum.map
        (fun ic => partStatus (ic.1 + 1))).all (fun x => x == 200)) = true
    · exact absurd (hall.mp hs 1 (by omega)) h2
    · rw [if_neg hs]

/-- Witness for C2: three can be reduced to two — a buffer one byte
over the threshold (two chunks) with all parts succeeding. -/
theorem drive_put_commit_abort_witness :
    CHUNK_SIZE < (List.replicate (CHUNK_SIZE + 1) 0).length
    ∧ ∃ (parts : List HttpCall) (final : HttpCall),
      Drive.put ⟨"drv", "pid", "key"⟩ "f.bin" (List.replicate (CHUNK_SIZE + 1) 0)
          ⟨"uid", "srv"⟩ (fun _ => 200)
        = { method := Method.POST,
            url := DRIVE_URL ++ "/" ++ "pid" ++ "/" ++ "drv" ++ "/uploads?name=" ++ "f.bin",
            body := none } :: (parts ++ [final])
      ∧ parts = (chunks CHUNK_SIZE (List.replicate (CHUNK_SIZE + 1) 0)).enum.map (fun ic =>
          { method := Method.POST,
            url := DRIVE_URL ++ "/" ++ "pid" ++ "/" ++ "drv" ++ "/uploads/" ++
              "uid" ++ "/parts?name=" ++ "srv" ++ "&part=" ++ toString (ic.1 + 1),
            body := some ic.2 })
      ∧ parts.length = (chunks CHUNK_SIZE (List.replicate (CHUNK_SIZE + 1) 0)).length
      ∧ (∀ c ∈ parts, c.method = Method.POST)
      ∧ (final.method = Method.PATCH ∨ final.method = Method.DELETE)
      ∧ (final.method = Method.PATCH
          ↔ ∀ i < (chunks CHUNK_SIZE (List.replicate (CHUNK_SIZE + 1) 0)).length,
              (fun _ => 200 : Nat → Nat) (i + 1) = 200)
      ∧ (final.method = Method.DELETE
          ↔ ∃ i, i < (chunks CHUNK_SIZE (List.replicate (CHUNK_SIZE + 1) 0)).length
              ∧ (fun _ => 200 : Nat → Nat) (i + 1) ≠ 200)
      ∧ ((chunks CHUNK_SIZE (List.replicate (CHUNK_SIZE + 1) 0)).length = 3
          → (fun _ => 200 : Nat → Nat) 2 ≠ 200 → final.method = Method.DELETE) := by
  have hlen : CHUNK_SIZE < (List.replicate (CHUNK_SIZE + 1) 0).length := by simp
  exact ⟨hlen, drive_put_commit_abort ⟨"drv", "pid", "key"⟩ "f.bin"
    (List.replicate (CHUNK_SIZE + 1) 0) ⟨"uid", "srv"⟩ (fun _ => 200) hlen⟩

/-- Claim C4: content of exactly `CHUNK_SIZE` bytes goes down the small
path — one POST of the raw bytes, no upload session; one byte more
goes down the large path with exactly two 1-indexed parts of sizes
`CHUNK_SIZE` and 1, followed by exactly one commit-or-abort call on the
upload session. -/
theorem drive_put_threshold (d : Drive) (save_as : String) (content : List Nat)
    (init_data : InitData) (partStatus : Nat → Nat) :
    (content.length = CHUNK_SIZE →
      Drive.put d save_as content init_data partStatus
        = [{ method := Method.POST,
             url := DRIVE_URL ++ "/" ++ d.project_id ++ "/" ++ d.name
               ++ "/files?name=" ++ save_as,
             body := some content }])
    ∧ (content.length = CHUNK_SIZE + 1 →
      ∃ final : HttpCall,
        Drive.put d save_as content init_data partStatus
          = { method := Method.POST,
              url := DRIVE_URL ++ "/" ++ d.project_id ++ "/" ++ d.name
                ++ "/uploads?name=" ++ save_as,
              body := none }
            :: { method := Method.POST,
                 url := DRIVE_URL ++ "/" ++ d.project_id ++ "/" ++ d.name ++ "/uploads/" ++
                   init_data.upload_id ++ "/parts?name=" ++ init_data.name ++ "&part="
                   ++ toString 1,
                 body := some (content.take CHUNK_SIZE) }
            :: { method := Method.POST,
                 url := DRIVE_URL ++ "/" ++ d.project_id ++ "/" ++ d.name ++ "/uploads/" ++
                   init_data.upload_id ++ "/parts?name=" ++ init_data.name ++ "&part="
                   ++ toString 2,
                 body := some (content.drop CHUNK_SIZE) }
            :: [final]
        ∧ (content.take CHUNK_SIZE).length = CHUNK_SIZE
        ∧ (content.drop CHUNK_SIZE).length = 1
        ∧ (final.method = Method.PATCH ∨ final.method = Method.DELETE)
        ∧ final.url = DRIVE_URL ++ "/" ++ d.project_id ++ "/" ++ d.name ++ "/uploads/" ++
            init_data.upload_id ++ "?name=" ++ init_data.name) := by
  constructor
  · intro h
    have hle : content.length ≤ CHUNK_SIZE := le_of_eq h
    simp [Drive.put, if_pos hle]
  · intro h
    have hnot : ¬ content.length ≤ CHUNK_SIZE := by omega
    have hch := chunks_over_by_one content h
    have htake : (content.take CHUNK_SIZE).length = CHUNK_SIZE := by
      simp [h]
    have hdrop : (content.drop CHUNK_SIZE).length = 1 := by
      simp [h]
    by_cases hb : (partStatus 1 == 200 && (partStatus 2 == 200 && true)) = true
    · refine ⟨{ method := Method.PATCH,
                url := DRIVE_URL ++ "/" ++ d.project_id ++ "/" ++ d.name ++ "/uploads/" ++
                  init_data.upload_id ++ "?name=" ++ init_data.name,
                body := none }, ?_, htake, hdrop, Or.inl rfl, rfl⟩
      simp only [Drive.put, if_neg hnot, hch, List.enum, List.enumFrom, List.map_cons,
        List.map_nil, List.all_cons, List.all_nil, Nat.reduceAdd]
      rw [if_pos hb]
      rfl
    · refine ⟨{ method := Method.DELETE,
                url := DRIVE_URL ++ "/" ++ d.project_id ++ "/" ++ d.name ++ "/uploads/" ++
                  init_data.upload_id ++ "?name=" ++ init_data.name,
                body := none }, ?_, htake, hdrop, Or.inr rfl, rfl⟩
      simp only [Drive.put, if_neg hnot, hch, List.enum, List.enumFrom, List.map_cons,
        List.map_nil, List.all_cons, List.all_nil, Nat.reduceAdd]
      rw [if_neg hb]
      rfl

/-- Witness for C4: a buffer of exactly `CHUNK_SIZE` zeros and one of
`CHUNK_SIZE + 1` zeros, all part uploads succeeding. -/
theorem drive_put_threshold_witness :
    ((List.replicate CHUNK_SIZE 0).length = CHUNK_SIZE
      ∧ Drive.put ⟨"drv", "pid", "key"⟩ "f.bin" (List.replicate CHUNK_SIZE 0)
          ⟨"uid", "srv"⟩ (fun _ => 200)
        = [{ method := Method.POST,
             url := DRIVE_URL ++ "/" ++ "pid" ++ "/" ++ "drv" ++ "/files?name=" ++ "f.bin",
             body := some (List.replicate CHUNK_SIZE 0) }])
    ∧ ((List.replicate (CHUNK_SIZE + 1) 0).length = CHUNK_SIZE + 1
      ∧ ∃ final : HttpCall,
        Drive.put ⟨"drv", "pid", "key"⟩ "f.bin" (List.replicate (CHUNK_SIZE + 1) 0)
            ⟨"uid", "srv"⟩ (fun _ => 200)
          = { method := Method.POST,
              url := DRIVE_URL ++ "/" ++ "pid" ++ "/" ++ "drv" ++ "/uploads?name=" ++ "f.bin",
              body := none }
            :: { method := Method.POST,
                 url := DRIVE_URL ++ "/" ++ "pid" ++ "/" ++ "drv" ++ "/uploads/" ++
                   "uid" ++ "/parts?name=" ++ "srv" ++ "&part=" ++ toString 1,
                 body := some ((List.replicate (CHUNK_SIZE + 1) 0).take CHUNK_SIZE) }
            :: { method := Method.POST,
                 url := DRIVE_URL ++ "/" ++ "pid" ++ "/" ++ "drv" ++ "/uploads/" ++
                   "uid" ++ "/parts?name=" ++ "srv" ++ "&part=" ++ toString 2,
                 body := some ((List.replicate (CHUNK_SIZE + 1) 0).drop CHUNK_SIZE) }
            :: [final]
        ∧ ((List.replicate (CHUNK_SIZE + 1) 0).take CHUNK_SIZE).length = CHUNK_SIZE
        ∧ ((List.replicate (CHUNK_SIZE + 1) 0).drop CHUNK_SIZE).length = 1
        ∧ (final.method = Method.PATCH ∨ final.method = Method.DELETE)
        ∧ final.url = DRIVE_URL ++ "/" ++ "pid" ++ "/" ++ "drv" ++ "/uploads/" ++
            "uid" ++ "?name=" ++ "srv") := by
  have hsmall : (List.replicate CHUNK_SIZE 0).length = CHUNK_SIZE := by simp
  have hlarge : (List.replicate (CHUNK_SIZE + 1) 0).length = CHUNK_SIZE + 1 := by simp
  exact ⟨⟨hsmall, (drive_put_threshold ⟨"drv", "pid", "key"⟩ "f.bin"
      (List.replicate CHUNK_SIZE 0) ⟨"uid", "srv"⟩ (fun _ => 200)).1 hsmall⟩,
    ⟨hlarge, (drive_put_threshold ⟨"drv", "pid", "key"⟩ "f.bin"
      (List.replicate (CHUNK_SIZE + 1) 0) ⟨"uid", "srv"⟩ (fun _ => 200)).2 hlarge⟩⟩

/-- Claim C8 counterexample: `Drive::put` embeds `save_as` without any
percent-encoding — for the name `"a b"` the issued URL carries the raw
space where the encoded form would carry `%20`. -/
theorem drive_put_encoding_counterexample :
    Drive.put ⟨"drv", "pid", "key"⟩ "a b" [0] ⟨"uid", "srv"⟩ (fun _ => 200)
      = [{ method := Method.POST,
           url := "https://drive.deta.sh/v1/pid/drv/files?name=a b",
           body := some [0] }]
    ∧ percentEncode "a b" = "a%20b"
    ∧ "https://drive.deta.sh/v1/pid/drv/files?name=a b"
        ≠ "https://drive.deta.sh/v1/pid/drv/files?name=a%20b" := by
  refine ⟨?_, ?_, ?_⟩
  · rfl
  · rfl
  · decide

/-- Claim C8 amended: no encoding is applied anywhere; the small-object and
initiate URLs embed `save_as` verbatim, while every part URL and the
finalize/abort URL embed the `name` returned by the initiate response
instead of `save_as`. -/
theorem drive_put_name_raw (d : Drive) (save_as : String) (content : List Nat)
    (init_data : InitData) (partStatus : Nat → Nat) :
    (content.length ≤ CHUNK_SIZE →
      Drive.put d save_as content init_data partStatus
        = [{ method := Method.POST,
             url := DRIVE_URL ++ "/" ++ d.project_id ++ "/" ++ d.name
               ++ "/files?name=" ++ save_as,
             body := some content }])
    ∧ (CHUNK_SIZE < content.length →
      ∃ (parts : List HttpCall) (final : HttpCall),
        Drive.put d save_as content init_data partStatus
          = { method := Method.POST,
              url := DRIVE_URL ++ "/" ++ d.project_id ++ "/" ++ d.name
                ++ "/uploads?name=" ++ save_as,
              body := none } :: (parts ++ [final])
        ∧ (∀ c ∈ parts, ∃ k : Nat,
            c.url = DRIVE_URL ++ "/" ++ d.project_id ++ "/" ++ d.name ++ "/uploads/" ++
              init_data.upload_id ++ "/parts?name=" ++ init_data.name ++ "&part="
              ++ toString k)
        ∧ final.url = DRIVE_URL ++ "/" ++ d.project_id ++ "/" ++ d.name ++ "/uploads/" ++
            init_data.upload_id ++ "?name=" ++ init_data.name) := by
  constructor
  · intro h
    simp [Drive.put, if_pos h]
  · intro h
    have hnot : ¬ content.length ≤ CHUNK_SIZE := by omega
    refine ⟨(chunks CHUNK_SIZE content).enum.map (fun ic =>
        { method := Method.POST,
          url := DRIVE_URL ++ "/" ++ d.project_id ++ "/" ++ d.name ++ "/uploads/" ++
            init_data.upload_id ++ "/parts?name=" ++ init_data.name ++ "&part="
            ++ toString (ic.1 + 1),
          body := some ic.2 }),
      (if (((chunks CHUNK_SIZE content).enum.map
            (fun ic => partStatus (ic.1 + 1))).all (fun x => x == 200)) = true
        then { method := Method.PATCH,
               url := DRIVE_URL ++ "/" ++ d.project_id ++ "/" ++ d.name ++ "/uploads/" ++
                 init_data.upload_id ++ "?name=" ++ init_data.name,
               body := none }
        else { method := Method.DELETE,
               url := DRIVE_URL ++ "/" ++ d.project_id ++ "/" ++ d.name ++ "/uploads/" ++
                 init_data.upload_id ++ "?name=" ++ init_data.name,
               body := none }),
      ?_, ?_, ?_⟩
    · simp only [Drive.put, if_neg hnot]
    · intro c hc
      simp only [List.mem_map] at hc
      obtain ⟨ic, _, hic⟩ := hc
      exact ⟨ic.1 + 1, by rw [← hic]⟩
    · by_cases hs : (((chunks CHUNK_SIZE content).enum.map
          (fun ic => partStatus (ic.1 + 1))).all (fun x => x == 200)) = true
      · rw [if_pos hs]
      · rw [if_neg hs]

/-- Witness for C8's amended statement: one small and one large upload
with distinct `save_as` and server-returned names. -/
theorem drive_put_name_raw_witness :
    (([0] : List Nat).length ≤ CHUNK_SIZE
      ∧ Drive.put ⟨"drv", "pid", "key"⟩ "a b" [0] ⟨"uid", "srv"⟩ (fun _ => 200)
        = [{ method := Method.POST,
             url := DRIVE_URL ++ "/" ++ "pid" ++ "/" ++ "drv" ++ "/files?name=" ++ "a b",
             body := some [0] }])
    ∧ (CHUNK_SIZE < (List.replicate (CHUNK_SIZE + 1) 0).length
      ∧ ∃ (parts : List HttpCall) (final : HttpCall),
        Drive.put ⟨"drv", "pid", "key"⟩ "a b" (List.replicate (CHUNK_SIZE + 1) 0)
            ⟨"uid", "srv"⟩ (fun _ => 200)
          = { method := Method.POST,
              url := DRIVE_URL ++ "/" ++ "pid" ++ "/" ++ "drv" ++ "/uploads?name=" ++ "a b",
              body := none } :: (parts ++ [final])
        ∧ (∀ c ∈ parts, ∃ k : Nat,
            c.url = DRIVE_URL ++ "/" ++ "pid" ++ "/" ++ "drv" ++ "/uploads/" ++
              "uid" ++ "/parts?name=" ++ "srv" ++ "&part=" ++ toString k)
        ∧ final.url = DRIVE_URL ++ "/" ++ "pid" ++ "/" ++ "drv" ++ "/uploads/" ++
            "uid" ++ "?name=" ++ "srv") := by
  have hsmall : ([0] : List Nat).length ≤ CHUNK_SIZE := by simp [CHUNK_SIZE]
  have hlarge : CHUNK_SIZE < (List.replicate (CHUNK_SIZE + 1) 0).length := by simp
  exact ⟨⟨hsmall, (drive_put_name_raw ⟨"drv", "pid", "key"⟩ "a b" [0]
      ⟨"uid", "srv"⟩ (fun _ => 200)).1 hsmall⟩,
    ⟨hlarge, (drive_put_name_raw ⟨"drv", "pid", "key"⟩ "a b"
      (List.replicate (CHUNK_SIZE + 1) 0) ⟨"uid", "srv"⟩ (fun _ => 200)).2 hlarge⟩⟩

/-- Mapping a fallible function over a list preserves the length when
it succeeds. -/
theorem list_mapM_some_length {α β : Type} (f : α → Option β) :
    ∀ (l : List α) (r : List β), l.mapM f = some r → r.length = l.length := by
  intro l
  induction l with
  | nil =>
    intro r h
    simp only [List.mapM_nil, Option.pure_def, Option.some.injEq] at h
    rw [← h]
    rfl
  | cons a l ih =>
    intro r h
    rw [List.mapM_cons] at h
    rcases hfa : f a with _ | b
    · rw [hfa] at h
      simp at h
    · rw [hfa] at h
      rcases hml : l.mapM f with _ | bs
      · rw [hml] at h
        simp at h
      · rw [hml] at h
        have h2 : some (b :: bs) = some r := h
        injection h2 with h3
        rw [← h3]
        simp [ih bs hml]

/-- Claim C9 counterexample: a bulk upsert of 26 records is not rejected
locally — `Base::put` still issues the PUT request carrying all 26
records under the `items` key. -/
theorem base_put_26_counterexample :
    Base.put ⟨"db", "pid", "key"⟩
        (List.replicate 26
          { key := none, value := Value.obj [], expires_in := none, expires_at := none }) 0
      = some { method := Method.PUT,
               url := BASE_URL ++ "/" ++ "pid" ++ "/" ++ "db" ++ "/items",
               payload := Value.obj
                 [("items", Value.arr (List.replicate 26 (Value.obj [])))] } := by
  rfl

/-- Claim C9 amended: `Base::put` performs no record-count check at all; for
any list of records whose values are JSON objects it issues exactly one
PUT with every record, however many, under the `items` key. -/
theorem base_put_no_count_check (b : Base) (records : List Record) (now : Int)
    (items : List Value) (h : records.mapM (fun r => r.json now) = some items) :
    Base.put b records now
      = some { method := Method.PUT,
               url := BASE_URL ++ "/" ++ b.project_id ++ "/" ++ b.name ++ "/items",
               payload := Value.obj [("items", Value.arr items)] }
    ∧ items.length = records.length := by
  constructor
  · simp only [Base.put, h]
  · exact list_mapM_some_length _ records items h

/-- Witness for C9's amended statement at a single empty record. -/
theorem base_put_no_count_check_witness :
    ([{ key := none, value := Value.obj [], expires_in := none,
        expires_at := none }] : List Record).mapM (fun r => r.json 0)
      = some [Value.obj []]
    ∧ (Base.put ⟨"db", "pid", "key"⟩
        [{ key := none, value := Value.obj [], expires_in := none, expires_at := none }] 0
      = some { method := Method.PUT,
               url := BASE_URL ++ "/" ++ "pid" ++ "/" ++ "db" ++ "/items",
               payload := Value.obj [("items", Value.arr [Value.obj []])] }
      ∧ ([Value.obj []] : List Value).length
        = ([{ key := none, value := Value.obj [], expires_in := none,
              expires_at := none }] : List Record).length) :=
  ⟨rfl, base_put_no_count_check ⟨"db", "pid", "key"⟩
    [{ key := none, value := Value.obj [], expires_in := none, expires_at := none }]
    0 [Value.obj []] rfl⟩

/-- Witness for C10 at a builder reached through several operations. -/
theorem query_limit_never_none_witness :
    Reachable ((Query.new.equals "name" (Value.str "John")).union (Query.new.setSort true))
    ∧ ((∃ n, ((Query.new.equals "name" (Value.str "John")).union
          (Query.new.setSort true)).limit = some n)
      ∧ ∃ fields, ((Query.new.equals "name" (Value.str "John")).union
          (Query.new.setSort true)).serialize = some (Value.obj fields)
        ∧ ∃ v, mapLookup "limit" fields = some v) :=
  have hr : Reachable ((Query.new.equals "name" (Value.str "John")).union
      (Query.new.setSort true)) :=
    Reachable.union _ _ (Reachable.equals _ _ _ Reachable.new)
      (Reachable.setSort _ _ Reachable.new)
  ⟨hr, query_limit_never_none _ hr⟩
